import Mathlib

/-!
Verification of the real-time client and reconciliation layer of the
`toolbanhangUIUX` point-of-sale frontend.

The development shallowly embeds the code of
`src/services/websocket.ts` (the `WebSocketService` class: connection
lifecycle, exponential-backoff reconnect, frame handling) and of
`src/pages/OrdersPage.tsx` (the reconciliation of optimistic local
state with REST fetches and real-time events).

Conventions of the embedding:
* the mutable fields of `WebSocketService` become the record `WSState`;
* each callback body (`connect`, the success / error callbacks passed to
  `stompClient.connect`, `onWebSocketClose`, `disconnect`,
  `scheduleReconnect`, the timer body) becomes a function on `WSState`
  returning the new state together with its observable effects: the
  number of STOMP client objects created and the list of event names
  emitted through `emitEvent`;
* asynchronous interleavings are traces of `WSAction`s folded by
  `runTrace`; an action whose enabling condition does not hold (no
  client object for a transport callback, no pending timer for a timer
  fire) is a no-op, mirroring a callback that never fires;
* JavaScript strings are `String`, `Map`/`Set` keep their insertion
  order as association lists / lists, JSON-serialised storage values are
  kept structured (the entry list that `Object.fromEntries` would see);
* timestamps (`Date.now()`, parsed `createdAt` dates) are `Nat`
  epoch-millisecond values.
-/

/-- Mutable state of `WebSocketService` (websocket.ts lines 6-12).
`stompClient` records whether a STOMP client object exists (`null` or
not); `reconnectTimer` holds the delay of the pending single-shot
reconnect timer, if any; `pingTimer` records whether the ping interval
timer is running. -/
structure WSState where
  isConnected : Bool
  isConnecting : Bool
  reconnectAttempts : Nat
  reconnectTimer : Option Nat
  pingTimer : Bool
  stompClient : Bool
  deriving Repr, DecidableEq

/-- The initial state of the singleton service (field initialisers,
websocket.ts lines 6-12). -/
def initWSState : WSState :=
  { isConnected := false, isConnecting := false, reconnectAttempts := 0,
    reconnectTimer := none, pingTimer := false, stompClient := false }

/-- `scheduleReconnect` (websocket.ts lines 341-357): clear any pending
timer, compute `delay = Math.min(5000 * Math.pow(2, reconnectAttempts), 20000)`,
increment the attempt counter, and arm a fresh single-shot timer with
that delay. -/
def scheduleReconnect (s : WSState) : WSState :=
  { s with
    reconnectTimer := some (min (5000 * 2 ^ s.reconnectAttempts) 20000),
    reconnectAttempts := s.reconnectAttempts + 1 }

/-- `startPing` (websocket.ts lines 261-273): arm the interval timer if
it is not already running. -/
def startPing (s : WSState) : WSState :=
  if s.pingTimer then s else { s with pingTimer := true }

/-- `stopPing` (websocket.ts lines 276-282). -/
def stopPing (s : WSState) : WSState :=
  { s with pingTimer := false }

/-- Body of `connect()` (websocket.ts lines 29-126) up to the point
where the asynchronous callbacks are installed.  Returns the new state,
the number of STOMP client objects created (`Stomp.over` calls that
succeeded) and the emitted event names.  `ctorFails` selects the branch
in which `Stomp.over(() => new SockJS(wsUrl))` throws (lines 52-57). -/
def wsConnect (s : WSState) (ctorFails : Bool) : WSState × Nat × List String :=
  if s.isConnected || s.isConnecting then
    (s, 0, [])
  else
    let s1 := { s with isConnecting := true }
    if ctorFails then
      ({ s1 with isConnecting := false }, 0, ["connect_error"])
    else
      ({ s1 with stompClient := true }, 1, [])

/-- Success callback passed to `stompClient.connect` (websocket.ts
lines 73-91): mark connected, reset the attempt counter, clear any
pending reconnect timer, emit `connect`, start the ping timer. -/
def onConnectSuccess (s : WSState) : WSState × List String :=
  (startPing
    { s with isConnected := true, isConnecting := false,
             reconnectAttempts := 0, reconnectTimer := none },
   ["connect"])

/-- Error callback passed to `stompClient.connect` (websocket.ts lines
92-103): clear both flags, emit `connect_error`, schedule a reconnect. -/
def onConnectError (s : WSState) : WSState × List String :=
  (scheduleReconnect { s with isConnected := false, isConnecting := false },
   ["connect_error"])

/-- `onWebSocketClose` handler (websocket.ts lines 112-118): clear both
flags, stop the ping timer, schedule a reconnect; nothing is emitted. -/
def onWebSocketClose (s : WSState) : WSState × List String :=
  (scheduleReconnect (stopPing { s with isConnected := false, isConnecting := false }),
   [])

/-- `disconnect()` (websocket.ts lines 242-258): when a client object
exists, clear both flags, stop the ping timer and clear any pending
reconnect timer.  The client object itself is kept (the code never sets
`this.stompClient = null`), so the callbacks installed on it stay
reachable. -/
def wsDisconnect (s : WSState) : WSState :=
  if s.stompClient then
    { s with isConnected := false, isConnecting := false, pingTimer := false,
             reconnectTimer := none }
  else s

/-- Body of the reconnect timer (websocket.ts lines 351-356): the
single-shot timer is consumed, and `connect()` runs only if the double
guard `!isConnected && !isConnecting` still holds. -/
def reconnectTimerFire (s : WSState) : WSState × Nat × List String :=
  let s0 := { s with reconnectTimer := none }
  if !s0.isConnected && !s0.isConnecting then wsConnect s0 false
  else (s0, 0, [])

/-- The asynchronous events that can reach the service: an explicit
`connect()` or `disconnect()` call, the library's success / error
connect callbacks, the transport close callback, and the reconnect
timer expiring. -/
inductive WSAction where
  | userConnect
  | userDisconnect
  | cbSuccess
  | cbError
  | cbClose
  | timerFire
  deriving Repr, DecidableEq

/-- One asynchronous step.  Transport callbacks are enabled only when a
client object exists (the handlers are installed on it); the timer fires
only when armed. -/
def wsStep (s : WSState) : WSAction → WSState × Nat × List String
  | WSAction.userConnect => wsConnect s false
  | WSAction.userDisconnect => (wsDisconnect s, 0, [])
  | WSAction.cbSuccess =>
      if s.stompClient then
        let (s1, e) := onConnectSuccess s
        (s1, 0, e)
      else (s, 0, [])
  | WSAction.cbError =>
      if s.stompClient then
        let (s1, e) := onConnectError s
        (s1, 0, e)
      else (s, 0, [])
  | WSAction.cbClose =>
      if s.stompClient then
        let (s1, e) := onWebSocketClose s
        (s1, 0, e)
      else (s, 0, [])
  | WSAction.timerFire =>
      if s.reconnectTimer.isSome then reconnectTimerFire s
      else (s, 0, [])

/-- Fold a trace of actions, accumulating the number of STOMP clients
created and the emitted event names. -/
def runTrace (s : WSState) : List WSAction → WSState × Nat × List String
  | [] => (s, 0, [])
  | a :: rest =>
      let (s1, n1, e1) := wsStep s a
      let (s2, n2, e2) := runTrace s1 rest
      (s2, n1 + n2, e1 ++ e2)

/-- The backoff delay produced for a given attempt count
(websocket.ts line 346). -/
def reconnectDelay (a : Nat) : Nat :=
  min (5000 * 2 ^ a) 20000

theorem wsConnect_guarded (s : WSState)
    (h : (s.isConnected || s.isConnecting) = true) (b : Bool) :
    wsConnect s b = (s, 0, []) := by
  simp [wsConnect, h]

theorem runTrace_connect_guarded (s : WSState)
    (h : (s.isConnected || s.isConnecting) = true) (acts : List WSAction)
    (hacts : ∀ a ∈ acts, a = WSAction.userConnect) :
    runTrace s acts = (s, 0, []) := by
  induction acts with
  | nil => rfl
  | cons a rest ih =>
      have ha : a = WSAction.userConnect := hacts a (by simp)
      subst ha
      have hrest : ∀ a ∈ rest, a = WSAction.userConnect := by
        intro a hmem; exact hacts a (by simp [hmem])
      simp [runTrace, wsStep, wsConnect_guarded s h, ih hrest]

/-- After a successful unguarded `wsConnect`, the connecting flag is up. -/
theorem wsConnect_sets_connecting (s : WSState)
    (h : (s.isConnected || s.isConnecting) = false) :
    (wsConnect s false).1.isConnecting = true ∧ (wsConnect s false).2.1 = 1 := by
  simp [wsConnect, h]

theorem runTrace_connect_once (s : WSState) (acts : List WSAction)
    (hacts : ∀ a ∈ acts, a = WSAction.userConnect) :
    (runTrace s acts).2.1 ≤ 1 := by
  induction acts generalizing s with
  | nil => simp [runTrace]
  | cons a rest ih =>
      have ha : a = WSAction.userConnect := hacts a (by simp)
      subst ha
      have hrest : ∀ a ∈ rest, a = WSAction.userConnect := by
        intro a hmem; exact hacts a (by simp [hmem])
      by_cases hg : (s.isConnected || s.isConnecting) = true
      · simp [runTrace, wsStep, wsConnect_guarded s hg]
        exact ih s hrest
      · have hg2 : (s.isConnected || s.isConnecting) = false := by
          revert hg; cases s.isConnected <;> cases s.isConnecting <;> simp
        have hrec : runTrace { s with isConnecting := true, stompClient := true } rest
            = ({ s with isConnecting := true, stompClient := true }, 0, []) :=
          runTrace_connect_guarded _ (by simp) rest hrest
        simp [runTrace, wsStep, wsConnect, hg2, hrec]

/-- C1: a `connect()` call made while the client is connected or
connecting returns immediately — it creates no STOMP client, changes no
flag or timer, and emits nothing — and consequently any sequence of
`connect()` calls creates at most one STOMP client in total. -/
theorem connect_idempotent_while_pending :
    (∀ (s : WSState) (acts : List WSAction),
      (s.isConnected || s.isConnecting) = true →
      (∀ a ∈ acts, a = WSAction.userConnect) →
      runTrace s acts = (s, 0, [])) ∧
    (∀ (s : WSState) (acts : List WSAction),
      (∀ a ∈ acts, a = WSAction.userConnect) →
      (runTrace s acts).2.1 ≤ 1) :=
  ⟨fun s acts h hacts => runTrace_connect_guarded s h acts hacts,
   fun s acts hacts => runTrace_connect_once s acts hacts⟩

theorem connect_idempotent_while_pending_witness :
    runTrace ⟨false, true, 0, none, false, true⟩
        [WSAction.userConnect, WSAction.userConnect]
      = (⟨false, true, 0, none, false, true⟩, 0, []) :=
  connect_idempotent_while_pending.1 _ _ (by decide) (by decide)

/-- C2: every schedule arms a timer with delay
`min(5000 * 2 ^ attempts, 20000)` ms and increments the attempt
counter; below the 20000 ms cap the delay strictly increases from one
consecutive schedule to the next (and never exceeds the cap); a
successful connect resets the counter to zero, so the next scheduled
delay is the 5000 ms base again. -/
theorem reconnect_backoff_schedule :
    (∀ s : WSState,
      (scheduleReconnect s).reconnectTimer
          = some (reconnectDelay s.reconnectAttempts) ∧
      (scheduleReconnect s).reconnectAttempts = s.reconnectAttempts + 1) ∧
    (∀ a : Nat, reconnectDelay a < 20000 →
      reconnectDelay a < reconnectDelay (a + 1)) ∧
    (∀ a : Nat, reconnectDelay a ≤ reconnectDelay (a + 1) ∧
      reconnectDelay a ≤ 20000) ∧
    (∀ s : WSState,
      ((onConnectSuccess s).1).reconnectAttempts = 0 ∧
      (scheduleReconnect (onConnectSuccess s).1).reconnectTimer = some 5000) := by
  refine ⟨fun s => ⟨rfl, rfl⟩, fun a h => ?_, fun a => ⟨?_, ?_⟩, fun s => ⟨?_, ?_⟩⟩
  · have h1 : 5000 * 2 ^ a < 20000 := by
      rcases min_lt_iff.mp h with h1 | h1
      · exact h1
      · exact absurd h1 (lt_irrefl _)
    have h2 : a < 2 := by
      by_contra hc
      push_neg at hc
      have h4 : (4 : Nat) ≤ 2 ^ a := by
        calc (4 : Nat) = 2 ^ 2 := by norm_num
        _ ≤ 2 ^ a := Nat.pow_le_pow_right (by norm_num) hc
      have := Nat.mul_le_mul_left 5000 h4
      omega
    interval_cases a <;> decide
  · have hm : (2:Nat) ^ a ≤ 2 ^ (a + 1) := Nat.pow_le_pow_right (by norm_num) (by omega)
    have := Nat.mul_le_mul_left 5000 hm
    simp only [reconnectDelay]
    omega
  · simp [reconnectDelay]
  · cases h : s.pingTimer <;>
      simp [onConnectSuccess, startPing, scheduleReconnect, h]
  · cases h : s.pingTimer <;>
      simp [onConnectSuccess, startPing, scheduleReconnect, h]

theorem reconnect_backoff_schedule_witness :
    reconnectDelay 0 < 20000 ∧ reconnectDelay 0 < reconnectDelay 1 :=
  ⟨by decide, reconnect_backoff_schedule.2.1 0 (by decide)⟩

/-- C4: the transport close callback clears both flags, stops the ping
timer, arms a reconnect timer, and emits nothing (in particular no
`connect_error`); `connect_error` is emitted exactly by the explicit
connect-failure callback and by the transport-construction failure
branch of `connect()`. -/
theorem close_silent_retry :
    (∀ s : WSState,
      (onWebSocketClose s).1.isConnected = false ∧
      (onWebSocketClose s).1.isConnecting = false ∧
      (onWebSocketClose s).1.pingTimer = false ∧
      ((onWebSocketClose s).1.reconnectTimer).isSome = true ∧
      (onWebSocketClose s).2 = []) ∧
    (∀ s : WSState, (onConnectError s).2 = ["connect_error"]) ∧
    (∀ s : WSState, (wsConnect s true).2.2
        = (if s.isConnected || s.isConnecting then [] else ["connect_error"])) ∧
    (∀ (s : WSState) (a : WSAction),
      "connect_error" ∈ (wsStep s a).2.2 ↔
        (a = WSAction.cbError ∧ s.stompClient = true)) := by
  refine ⟨fun s => ⟨rfl, rfl, rfl, rfl, rfl⟩, fun s => rfl, fun s => ?_, fun s a => ?_⟩
  · by_cases h : (s.isConnected || s.isConnecting) = true
    · simp [wsConnect, h]
    · have h2 : (s.isConnected || s.isConnecting) = false := by
        revert h; cases s.isConnected <;> cases s.isConnecting <;> simp
      simp [wsConnect, h2]
  · obtain ⟨c1, c2, ra, rt, pt, sc⟩ := s
    cases a <;> cases c1 <;> cases c2 <;> cases sc <;> cases pt <;> cases rt <;>
      simp [wsStep, wsConnect, reconnectTimerFire, onConnectSuccess, onConnectError,
        onWebSocketClose, startPing, stopPing, scheduleReconnect]

theorem close_silent_retry_witness :
    "connect_error" ∈ (wsStep ⟨false, false, 0, none, false, true⟩ WSAction.cbError).2.2 :=
  (close_silent_retry.2.2.2 ⟨false, false, 0, none, false, true⟩ WSAction.cbError).mpr
    ⟨rfl, rfl⟩

theorem runTrace_no_timer_no_session (acts : List WSAction) :
    ∀ s : WSState, s.reconnectTimer = none →
      (∀ a ∈ acts, a = WSAction.userDisconnect ∨ a = WSAction.timerFire) →
      (runTrace s acts).2.1 = 0 ∧ (runTrace s acts).1.reconnectTimer = none := by
  induction acts with
  | nil => intro s hs _; simp [runTrace, hs]
  | cons a rest ih =>
      intro s hs hacts
      have hrest : ∀ a ∈ rest, a = WSAction.userDisconnect ∨ a = WSAction.timerFire := by
        intro a hmem; exact hacts a (by simp [hmem])
      rcases hacts a (by simp) with ha | ha <;> subst ha
      · have hd : (wsDisconnect s).reconnectTimer = none := by
          by_cases hc : s.stompClient = true
          · simp [wsDisconnect, hc]
          · simp only [Bool.not_eq_true] at hc
            simp [wsDisconnect, hc, hs]
        have hih := ih (wsDisconnect s) hd hrest
        simpa [runTrace, wsStep] using hih
      · have hih := ih s hs hrest
        simpa [runTrace, wsStep, hs] using hih

/-- C5 as stated is false on the code: `disconnect()` leaves the STOMP
client object (and the `onWebSocketClose` handler installed on it) in
place, and that handler unconditionally schedules a reconnect whose
timer guard `!isConnected && !isConnecting` holds after `disconnect()`.
Concretely: connect, succeed, disconnect; then the transport close
callback (which the graceful close itself triggers) fires followed by
the timer — a new STOMP client is created although `connect()` was
never called again. -/
theorem disconnect_reconnect_counterexample :
    (∀ a ∈ [WSAction.cbClose, WSAction.timerFire], a ≠ WSAction.userConnect) ∧
    (runTrace (wsDisconnect (onConnectSuccess (wsConnect initWSState false).1).1)
        [WSAction.cbClose, WSAction.timerFire]).2.1 = 1 := by
  decide

/-- C5 amended: after `disconnect()` the pending reconnect timer (if
any) is cleared, and as long as no transport callback (close or
connect-failure) fires and `connect()` is not called — i.e. along any
trace made only of further `disconnect()` calls and timer expiries — no
STOMP client is created and no reconnect timer is armed. -/
theorem disconnect_stops_timer_reconnect :
    ∀ (s : WSState) (acts : List WSAction),
      s.stompClient = true →
      (∀ a ∈ acts, a = WSAction.userDisconnect ∨ a = WSAction.timerFire) →
      (runTrace (wsDisconnect s) acts).2.1 = 0 ∧
      (runTrace (wsDisconnect s) acts).1.reconnectTimer = none := by
  intro s acts hc hacts
  exact runTrace_no_timer_no_session acts (wsDisconnect s)
    (by simp [wsDisconnect, hc]) hacts

theorem disconnect_stops_timer_reconnect_witness :
    (runTrace (wsDisconnect ⟨true, false, 3, some 20000, true, true⟩)
        [WSAction.timerFire, WSAction.userDisconnect, WSAction.timerFire]).2.1 = 0 ∧
    (runTrace (wsDisconnect ⟨true, false, 3, some 20000, true, true⟩)
        [WSAction.timerFire, WSAction.userDisconnect, WSAction.timerFire]).1.reconnectTimer
      = none :=
  disconnect_stops_timer_reconnect _ _ (by decide) (by decide)

/-- JS `body.startsWith('"')` for the one-character pattern used at
websocket.ts line 158, expressed on the character list so that it
evaluates inside the kernel. -/
def startsWithQuote (s : String) : Bool :=
  s.data.head? == some '"'

/-- JS `body.endsWith('"')` (websocket.ts line 158). -/
def endsWithQuote (s : String) : Bool :=
  s.data.getLast? == some '"'

/-- JS `orderId.slice(1, -1)` (websocket.ts line 159): the characters
strictly between the first and the last one. -/
def sliceOneMinusOne (s : String) : String :=
  String.mk ((s.data.drop 1).dropLast)

/-- Handler body for `/topic/orders/deleted` (websocket.ts lines
153-166): strip one layer of wrapping double quotes when the body both
starts and ends with one, then emit `order_deleted` with the result. -/
def ordersDeletedHandler (body : String) : String × String :=
  let orderId := if startsWithQuote body && endsWithQuote body
                 then sliceOneMinusOne body else body
  ("order_deleted", orderId)

/-- C3: a deletion-topic frame whose body is wrapped in double quotes
emits `order_deleted` with exactly the first and last characters
stripped (so body `"\"abc-123\""` yields the bare `abc-123`), and a
body not wrapped on both sides is forwarded verbatim. -/
theorem deletion_topic_unquote :
    (∀ body : String,
      (startsWithQuote body && endsWithQuote body) = true →
        ordersDeletedHandler body
          = ("order_deleted", String.mk ((body.data.drop 1).dropLast))) ∧
    (∀ body : String,
      (startsWithQuote body && endsWithQuote body) = false →
        ordersDeletedHandler body = ("order_deleted", body)) ∧
    ordersDeletedHandler "\"abc-123\"" = ("order_deleted", "abc-123") := by
  refine ⟨fun body h => ?_, fun body h => ?_, by decide⟩
  · simp [ordersDeletedHandler, h, sliceOneMinusOne]
  · simp [ordersDeletedHandler, h]

theorem deletion_topic_unquote_witness :
    ordersDeletedHandler "\"abc-123\""
      = ("order_deleted", String.mk (("\"abc-123\"".data.drop 1).dropLast)) :=
  deletion_topic_unquote.1 "\"abc-123\"" (by decide)

/-- Membership in a JS `Set<string>` modelled as an insertion-ordered
duplicate-free list. -/
def smem : List String → String → Bool
  | [], _ => false
  | x :: t, y => x == y || smem t y

/-- JS `Set.add` (appends only if absent). -/
def setAdd (s : List String) (x : String) : List String :=
  if smem s x then s else s ++ [x]

/-- JS `Set.delete`. -/
def setDel (s : List String) (x : String) : List String :=
  s.filter (fun y => !(y == x))

/-- JS `Map.get` on an insertion-ordered association list. -/
def mapGet : List (String × List String) → String → Option (List String)
  | [], _ => none
  | (k, v) :: t, k0 => if k == k0 then some v else mapGet t k0

/-- JS `Map.set`: replace the entry in place if the key exists,
otherwise append. -/
def mapSet : List (String × List String) → String → List String →
    List (String × List String)
  | [], k0, v0 => [(k0, v0)]
  | (k, v) :: t, k0, v0 =>
      if k == k0 then (k0, v0) :: t else (k, v) :: mapSet t k0 v0

/-- JS `Map.delete`. -/
def mapDelete : List (String × List String) → String → List (String × List String)
  | [], _ => []
  | (k, v) :: t, k0 => if k == k0 then t else (k, v) :: mapDelete t k0

/-- Payload of `/topic/order-item-marks` events (websocket.ts line 185,
OrdersPage.tsx line 184). -/
structure MarkEvent where
  orderId : String
  itemId : String
  marked : Bool
  deriving Repr, DecidableEq

/-- A `localStorage.setItem` call, with the JSON value kept structured:
the entry list that `Object.fromEntries` receives. -/
structure StorageWrite where
  key : String
  entries : List (String × List String)
  deriving Repr, DecidableEq

/-- `handleMarkEvt` (OrdersPage.tsx lines 184-208): copy the mapping,
add or remove the item id in the order's set according to `marked`,
store the set back under the order id, and persist the whole mapping
under the `markedItems` key. -/
def handleMarkEvt (m : List (String × List String)) (evt : MarkEvent) :
    List (String × List String) × StorageWrite :=
  let setForOrder := (mapGet m evt.orderId).getD []
  let setForOrder2 :=
    if evt.marked then setAdd setForOrder evt.itemId
    else setDel setForOrder evt.itemId
  let next := mapSet m evt.orderId setForOrder2
  (next, ⟨"markedItems", next⟩)

/-- The marked-item set recorded for an order (empty when absent),
mirroring `next.get(evt.orderId) || []`. -/
def lookupMarks (m : List (String × List String)) (oid : String) : List String :=
  (mapGet m oid).getD []

/-- Whether `iid` is marked for order `oid` in mapping `m`. -/
def memMarks (m : List (String × List String)) (oid iid : String) : Bool :=
  smem (lookupMarks m oid) iid

theorem smem_iff (s : List String) (y : String) : smem s y = true ↔ y ∈ s := by
  induction s with
  | nil => simp [smem]
  | cons a t ih =>
      simp only [smem, Bool.or_eq_true, beq_iff_eq, ih, List.mem_cons]
      exact or_congr eq_comm Iff.rfl

theorem smem_append (s t : List String) (y : String) :
    smem (s ++ t) y = (smem s y || smem t y) := by
  induction s with
  | nil => simp [smem]
  | cons a u ih => simp [smem, ih, Bool.or_assoc]

theorem smem_setAdd (s : List String) (x y : String) :
    smem (setAdd s x) y = (smem s y || (y == x)) := by
  rw [Bool.eq_iff_iff]
  by_cases h : smem s x = true
  · simp only [setAdd, h, if_true, Bool.or_eq_true, beq_iff_eq]
    constructor
    · exact Or.inl
    · rintro (hy | rfl)
      · exact hy
      · exact h
  · rw [setAdd, if_neg h, smem_append]
    simp only [smem, Bool.or_eq_true, beq_iff_eq, Bool.or_false]
    exact or_congr Iff.rfl eq_comm

theorem smem_setDel (s : List String) (x y : String) :
    smem (setDel s x) y = (smem s y && !(y == x)) := by
  rw [Bool.eq_iff_iff]
  simp only [setDel, smem_iff, List.mem_filter, Bool.and_eq_true, Bool.not_eq_true',
    beq_eq_false_iff_ne, ne_eq]

theorem mapGet_mapSet_self (m : List (String × List String)) (k : String)
    (v : List String) : mapGet (mapSet m k v) k = some v := by
  induction m with
  | nil => simp [mapSet, mapGet]
  | cons e t ih =>
      obtain ⟨k1, v1⟩ := e
      by_cases h : k1 = k
      · subst h; simp [mapSet, mapGet]
      · simp [mapSet, mapGet, h, ih]

theorem mapGet_mapSet_ne (m : List (String × List String)) (ks kg : String)
    (v : List String) (h : ks ≠ kg) :
    mapGet (mapSet m ks v) kg = mapGet m kg := by
  induction m with
  | nil => simp [mapSet, mapGet, h]
  | cons e t ih =>
      obtain ⟨k1, v1⟩ := e
      by_cases h1 : k1 = ks
      · subst h1; simp [mapSet, mapGet, h]
      · by_cases h2 : k1 = kg
        · subst h2; simp [mapSet, mapGet, h1]
        · simp [mapSet, mapGet, h1, h2, ih]

/-- C6: handling a remote `order_item_marked` event adds the item id to
the order's marked set when `marked` is true and removes it when
`marked` is false, leaves every other order's set untouched, and
persists the entire updated mapping under the `markedItems` storage
key; in particular `{orderA -> {item1,item2}}` plus
`{orderA, item3, true}` yields `{orderA -> {item1,item2,item3}}`. -/
theorem mark_event_updates_set :
    (∀ (m : List (String × List String)) (evt : MarkEvent) (oid iid : String),
      memMarks (handleMarkEvt m evt).1 oid iid =
        (if oid = evt.orderId then
          (if iid = evt.itemId then evt.marked else memMarks m oid iid)
         else memMarks m oid iid)) ∧
    (∀ (m : List (String × List String)) (evt : MarkEvent),
      (handleMarkEvt m evt).2 = ⟨"markedItems", (handleMarkEvt m evt).1⟩) ∧
    handleMarkEvt [("orderA", ["item1", "item2"])] ⟨"orderA", "item3", true⟩
      = ([("orderA", ["item1", "item2", "item3"])],
         ⟨"markedItems", [("orderA", ["item1", "item2", "item3"])]⟩) := by
  refine ⟨fun m evt oid iid => ?_, fun m evt => rfl, by decide⟩
  by_cases ho : oid = evt.orderId
  · simp only [memMarks, lookupMarks, handleMarkEvt, ho, mapGet_mapSet_self,
      Option.getD_some, if_pos rfl]
    by_cases hi : iid = evt.itemId
    · cases hm : evt.marked <;> simp [hi, hm, smem_setAdd, smem_setDel]
    · have hb : (iid == evt.itemId) = false := beq_eq_false_iff_ne.mpr hi
      cases hm : evt.marked <;> simp [hm, smem_setAdd, smem_setDel, hb, hi]
  · simp only [memMarks, lookupMarks, handleMarkEvt, if_neg ho]
    rw [mapGet_mapSet_ne _ _ _ _ (Ne.symm ho)]

/-- One `OrderItem` of the REST payload (OrdersPage.tsx lines 7-13). -/
structure OrderItem where
  id : String
  foodItemName : String
  price : Int
  quantity : Nat
  subtotal : Int
  deriving Repr, DecidableEq

/-- One `Order` of the REST payload (OrdersPage.tsx lines 15-23).
`createdAt` is kept as the epoch-millisecond value that
`new Date(createdAt).getTime()` yields for the source's date string. -/
structure Order where
  id : String
  tableNumbers : List Nat
  numberOfPeople : Nat
  items : List OrderItem
  status : String
  createdAt : Nat
  totalAmount : Int
  deriving Repr, DecidableEq

/-- The merge loop inside `fetchOrders`' `setOrders` updater
(OrdersPage.tsx lines 267-277): walk the previous orders in order and
prepend each one whose id is absent from the accumulated list. -/
def mergeFetchedWithPrev (merged : List Order) : List Order → List Order
  | [] => merged
  | prevOrder :: rest =>
      if merged.any (fun apiOrder => apiOrder.id == prevOrder.id) then
        mergeFetchedWithPrev merged rest
      else
        mergeFetchedWithPrev (prevOrder :: merged) rest

/-- The sort at OrdersPage.tsx lines 279-283: ascending by the parsed
`createdAt` timestamp. -/
def sortByCreatedAt (l : List Order) : List Order :=
  l.mergeSort (fun a b => a.createdAt ≤ b.createdAt)

/-- The full `setOrders` updater of `fetchOrders` (OrdersPage.tsx lines
267-286): merge the (already deletion-filtered) fetch result with the
previous orders, then sort ascending by creation time. -/
def fetchOrdersMerge (filteredOrders prevOrders : List Order) : List Order :=
  sortByCreatedAt (mergeFetchedWithPrev filteredOrders prevOrders)

theorem mergeFetched_filter_of_any (xid : String) (prev : List Order) :
    ∀ acc : List Order, acc.any (fun o => o.id == xid) = true →
      (mergeFetchedWithPrev acc prev).filter (fun o => o.id == xid)
        = acc.filter (fun o => o.id == xid) := by
  induction prev with
  | nil => intro acc _; rfl
  | cons p rest ih =>
      intro acc h
      by_cases hp : acc.any (fun o => o.id == p.id) = true
      · rw [mergeFetchedWithPrev, if_pos hp]
        exact ih acc h
      · rw [mergeFetchedWithPrev, if_neg hp]
        have hpx : (p.id == xid) = false := by
          rcases List.any_eq_true.mp h with ⟨o, ho, hox⟩
          have hox2 : o.id = xid := by simpa using hox
          refine beq_eq_false_iff_ne.mpr fun hpe => hp ?_
          exact List.any_eq_true.mpr ⟨o, ho, by simp [hox2, hpe]⟩
        have h2 : (p :: acc).any (fun o => o.id == xid) = true := by
          simp only [List.any_cons, h, Bool.or_true]
        rw [ih (p :: acc) h2, List.filter_cons, hpx]
        simp

theorem mergeFetched_mem (prev : List Order) :
    ∀ (acc : List Order) (o : Order), o ∈ mergeFetchedWithPrev acc prev →
      o ∈ acc ∨ o ∈ prev := by
  induction prev with
  | nil => intro acc o h; exact Or.inl h
  | cons p rest ih =>
      intro acc o h
      rw [mergeFetchedWithPrev] at h
      by_cases hp : acc.any (fun q => q.id == p.id) = true
      · rw [if_pos hp] at h
        rcases ih acc o h with h2 | h2
        · exact Or.inl h2
        · exact Or.inr (List.mem_cons_of_mem _ h2)
      · rw [if_neg hp] at h
        rcases ih (p :: acc) o h with h2 | h2
        · rcases List.mem_cons.mp h2 with h3 | h3
          · exact Or.inr (h3 ▸ List.mem_cons_self _ _)
          · exact Or.inl h3
        · exact Or.inr (List.mem_cons_of_mem _ h2)

/-- C7: if the REST fetch response contains exactly one order with id
`X` and the previous (optimistically extended) list also contains an
order with that id, the merged and sorted final list contains exactly
one entry with id `X`, and that entry comes from the fetch response. -/
theorem optimistic_create_dedup (fetched prev : List Order) (xid : String)
    (h1 : fetched.countP (fun o => o.id == xid) = 1)
    (_h2 : ∃ p ∈ prev, p.id = xid) :
    (fetchOrdersMerge fetched prev).countP (fun o => o.id == xid) = 1 ∧
    ∀ o ∈ fetchOrdersMerge fetched prev, o.id = xid → o ∈ fetched := by
  have hany : fetched.any (fun o => o.id == xid) = true := by
    have hpos : 0 < fetched.countP (fun o => o.id == xid) := by omega
    rcases List.countP_pos_iff.mp hpos with ⟨a, ha, hpa⟩
    exact List.any_eq_true.mpr ⟨a, ha, hpa⟩
  have hfil := mergeFetched_filter_of_any xid prev fetched hany
  have hperm : (fetchOrdersMerge fetched prev).Perm
      (mergeFetchedWithPrev fetched prev) :=
    List.mergeSort_perm _ _
  constructor
  · calc (fetchOrdersMerge fetched prev).countP (fun o => o.id == xid)
        = (mergeFetchedWithPrev fetched prev).countP (fun o => o.id == xid) :=
          hperm.countP_eq _
      _ = ((mergeFetchedWithPrev fetched prev).filter (fun o => o.id == xid)).length := by
          rw [List.countP_eq_length_filter]
      _ = (fetched.filter (fun o => o.id == xid)).length := by rw [hfil]
      _ = fetched.countP (fun o => o.id == xid) := by rw [List.countP_eq_length_filter]
      _ = 1 := h1
  · intro o hmem hid
    have hm1 : o ∈ mergeFetchedWithPrev fetched prev := hperm.mem_iff.mp hmem
    have hm2 : o ∈ (mergeFetchedWithPrev fetched prev).filter (fun q => q.id == xid) :=
      List.mem_filter.mpr ⟨hm1, by simp [hid]⟩
    rw [hfil] at hm2
    exact (List.mem_filter.mp hm2).1

theorem optimistic_create_dedup_witness :
    (fetchOrdersMerge
        [⟨"X", [1], 2, [], "PENDING", 50, 0⟩]
        [⟨"X", [1], 2, [], "PENDING", 10, 0⟩,
         ⟨"Y", [2], 4, [], "DONE", 20, 0⟩]).countP (fun o => o.id == "X") = 1 :=
  (optimistic_create_dedup _ _ "X" (by decide)
    ⟨⟨"X", [1], 2, [], "PENDING", 10, 0⟩, by decide, rfl⟩).1

/-- `filterDeletedOrders` (OrdersPage.tsx lines 217-245): combine the
in-memory deleted ids with the ids parsed from the
`missedOrderDeletions` storage entry (absent or unparseable entries
contribute nothing), and if the combined list is non-empty drop every
order whose id it contains.  Returns the visible orders and the
combined deleted-id list that replaces the component state. -/
def filterDeletedOrders (deletedOrderIds : List String)
    (missed : Option (List String)) (orders : List Order) :
    List Order × List String :=
  let allDeletedOrderIds := deletedOrderIds ++ missed.getD []
  if 0 < allDeletedOrderIds.length then
    (orders.filter (fun o => !(smem allDeletedOrderIds o.id)), allDeletedOrderIds)
  else
    (orders, allDeletedOrderIds)

/-- `handleOrderDeleted` (OrdersPage.tsx lines 503-528): ignore falsy
ids, otherwise drop the order from the list, append its id to the
deleted-id list and remove its marked-item entry. -/
def handleOrderDeleted (orders : List Order) (deletedOrderIds : List String)
    (markedItems : List (String × List String)) (orderId : String) :
    List Order × List String × List (String × List String) :=
  if orderId == "" then (orders, deletedOrderIds, markedItems)
  else
    (orders.filter (fun o => !(o.id == orderId)),
     deletedOrderIds ++ [orderId],
     mapDelete markedItems orderId)

/-- C8: an id recorded as deleted — in the in-memory deleted-id list or
in the `missedOrderDeletions` storage entry — is absent from the
filtered fetch response and (since `handleOrderDeleted` also removed it
from the previous list) from the final merged visible list; and
`handleOrderDeleted` itself records the id and removes the order. -/
theorem deleted_ids_suppressed (dIds : List String) (missed : Option (List String))
    (resp prev : List Order) (xid : String)
    (hx : xid ∈ dIds ++ missed.getD [])
    (hprev : ∀ p ∈ prev, p.id ≠ xid) :
    (∀ o ∈ (filterDeletedOrders dIds missed resp).1, o.id ≠ xid) ∧
    (∀ o ∈ fetchOrdersMerge (filterDeletedOrders dIds missed resp).1 prev,
      o.id ≠ xid) ∧
    (∀ (orders : List Order) (dIds2 : List String)
        (marked : List (String × List String)),
      (xid == "") = false →
        xid ∈ (handleOrderDeleted orders dIds2 marked xid).2.1 ∧
        ∀ o ∈ (handleOrderDeleted orders dIds2 marked xid).1, o.id ≠ xid) := by
  have hall : 0 < (dIds ++ missed.getD []).length :=
    List.length_pos.mpr (List.ne_nil_of_mem hx)
  have hvis : ∀ o ∈ (filterDeletedOrders dIds missed resp).1, o.id ≠ xid := by
    intro o ho hid
    simp only [filterDeletedOrders, if_pos hall] at ho
    have hsm : smem (dIds ++ missed.getD []) o.id = false := by
      simpa using (List.mem_filter.mp ho).2
    rw [hid] at hsm
    have htrue : smem (dIds ++ missed.getD []) xid = true := (smem_iff _ _).mpr hx
    simp [hsm] at htrue
  refine ⟨hvis, ?_, ?_⟩
  · intro o ho hid
    have hperm : (fetchOrdersMerge (filterDeletedOrders dIds missed resp).1 prev).Perm
        (mergeFetchedWithPrev (filterDeletedOrders dIds missed resp).1 prev) :=
      List.mergeSort_perm _ _
    have hm : o ∈ mergeFetchedWithPrev (filterDeletedOrders dIds missed resp).1 prev :=
      hperm.mem_iff.mp ho
    rcases mergeFetched_mem prev _ o hm with h2 | h2
    · exact hvis o h2 hid
    · exact hprev o h2 hid
  · intro orders dIds2 marked hne
    constructor
    · simp [handleOrderDeleted, hne]
    · intro o ho hid
      simp only [handleOrderDeleted, hne, Bool.false_eq_true, if_false] at ho
      have : (o.id == xid) = false := by simpa using (List.mem_filter.mp ho).2
      rw [hid] at this
      simp at this

theorem deleted_ids_suppressed_witness :
    ("D" : String) ∈ (handleOrderDeleted [] [] [] "D").2.1 :=
  ((deleted_ids_suppressed ["D"] (some ["M"]) [] [] "D" (by decide)
    (by intro p hp; cases hp)).2.2 [] [] [] (by decide)).1

/-- The 2-minute staleness threshold compared against
`timeSinceLastFetch` (OrdersPage.tsx lines 357, 363). -/
def stalenessThresholdMs : Nat := 120000

/-- The 5-minute lifetime of the recent-WebSocket-data flag
(OrdersPage.tsx lines 293-296 and 439-443, 450-454). -/
def recentWsClearMs : Nat := 300000

/-- Decision taken by `handleVisibilityChange` when the page becomes
visible (OrdersPage.tsx lines 340-370): `true` means `fetchOrders` is
called. -/
def refetchOnVisible (hasRecentWebSocketData : Bool) (ordersLen : Nat)
    (timeSinceLastFetch : Nat) : Bool :=
  if hasRecentWebSocketData then false
  else if 0 < ordersLen ∧ timeSinceLastFetch < stalenessThresholdMs then false
  else if ordersLen = 0 ∨ stalenessThresholdMs < timeSinceLastFetch then true
  else false

/-- C9: on page reactivation, the REST re-fetch happens exactly when
the recent-WebSocket-data flag is off and either no orders are known or
the last fetch is older than the staleness threshold; the threshold is
2 minutes and the freshness flag lives 5 minutes. -/
theorem visibility_refetch_gating :
    (∀ (hasRecent : Bool) (ordersLen timeSince : Nat),
      refetchOnVisible hasRecent ordersLen timeSince
        = (!hasRecent &&
           decide (ordersLen = 0 ∨ stalenessThresholdMs < timeSince))) ∧
    stalenessThresholdMs = 2 * 60 * 1000 ∧
    recentWsClearMs = 5 * 60 * 1000 := by
  refine ⟨fun hasRecent ordersLen timeSince => ?_, rfl, rfl⟩
  cases hasRecent
  · simp only [refetchOnVisible, Bool.not_false, Bool.true_and, Bool.false_eq_true,
      if_false]
    split_ifs with h1 h2
    · have : ¬(ordersLen = 0 ∨ stalenessThresholdMs < timeSince) := by
        push_neg
        omega
      simp [this]
    · simp [h2]
    · simp [h2]
  · simp [refetchOnVisible]

/-- Payload of `/topic/payments` events as `handlePaymentUpdate` reads
it (OrdersPage.tsx lines 532-594): optional status strings, a boolean
`confirmed` flag, and the two places an order id may live
(`payment.orderId`, `payment.order?.id`). -/
structure Payment where
  paymentStatus : Option String
  status : Option String
  confirmed : Bool
  orderId : Option String
  orderObjId : Option String
  deriving Repr, DecidableEq

/-- JavaScript truthiness of an optional string (absent and `""` are
falsy). -/
def jsTruthyStr : Option String → Bool
  | none => false
  | some s => !(s == "")

/-- The confirmation test of `handlePaymentUpdate` (OrdersPage.tsx
lines 536-541). -/
def isPaymentConfirmed (p : Payment) : Bool :=
  p.paymentStatus == some "PAID" ||
  p.paymentStatus == some "SUCCESS" ||
  p.paymentStatus == some "CONFIRMED" ||
  p.status == some "SUCCESS" ||
  p.status == some "CONFIRMED" ||
  p.confirmed

/-- `handlePaymentUpdate` (OrdersPage.tsx lines 532-594): on a
confirmed payment with a truthy order id, remove the order, record its
id as deleted and drop its marked items; on `PENDING`, trigger a
background re-fetch (the returned flag); otherwise do nothing. -/
def handlePaymentUpdate (p : Payment) (orders : List Order)
    (deletedOrderIds : List String) (markedItems : List (String × List String)) :
    (List Order × List String × List (String × List String)) × Bool :=
  if isPaymentConfirmed p then
    let oid := if jsTruthyStr p.orderId then p.orderId else p.orderObjId
    if jsTruthyStr oid then
      let i := oid.getD ""
      ((orders.filter (fun o => !(o.id == i)),
        deletedOrderIds ++ [i],
        mapDelete markedItems i), false)
    else ((orders, deletedOrderIds, markedItems), false)
  else if p.paymentStatus == some "PENDING" then
    ((orders, deletedOrderIds, markedItems), true)
  else
    ((orders, deletedOrderIds, markedItems), false)

/-- C10: a payment event that matches none of the confirmation
conditions and is not `PENDING` leaves the order list, the
deleted-order-id list and the marked-items mapping unchanged, and
triggers no re-fetch. -/
theorem payment_update_ignored (p : Payment) (orders : List Order)
    (deletedOrderIds : List String) (markedItems : List (String × List String))
    (h1 : isPaymentConfirmed p = false)
    (h2 : (p.paymentStatus == some "PENDING") = false) :
    handlePaymentUpdate p orders deletedOrderIds markedItems
      = ((orders, deletedOrderIds, markedItems), false) := by
  simp [handlePaymentUpdate, h1, h2]

theorem payment_update_ignored_witness :
    handlePaymentUpdate ⟨some "FAILED", some "FAILED", false, some "o1", none⟩
        [] ["z"] [("o1", ["i1"])]
      = (([], ["z"], [("o1", ["i1"])]), false) :=
  payment_update_ignored _ _ _ _ (by decide) (by decide)

theorem mark_event_updates_set_witness :
    memMarks (handleMarkEvt [("orderA", ["item1", "item2"])]
        ⟨"orderA", "item3", true⟩).1 "orderA" "item3" = true := by
  have h := mark_event_updates_set.1 [("orderA", ["item1", "item2"])]
    ⟨"orderA", "item3", true⟩ "orderA" "item3"
  simpa using h

theorem visibility_refetch_gating_witness :
    refetchOnVisible false 0 0 = true := by
  have h := visibility_refetch_gating.1 false 0 0
  simpa [stalenessThresholdMs] using h
